import Mathlib

/-
Verification of the exam-schedule builder (`src/scanner.py`).

The script has three core functions, embedded here over `List Char`
(Python `str`):

  * `parse_date_sheet`  — scans date-sheet lines in order, carrying a
    "current date" context, and builds an insertion-ordered mapping
    `paper_id -> (date, subject, paper_code)`;
  * `parse_roll_list`   — three escalating strategies (tabular rows,
    "Roll No"-delimited text blocks, brute-force context windows);
  * `build_schedule`    — joins students against the date-sheet mapping,
    one row per (student, paper id) pair, with sentinel values on a miss.

The regular expressions compiled by the source are embedded as
specialized scanners whose semantics (word boundaries, greedy/lazy
quantifiers, leftmost-match search, non-overlapping findall/finditer)
are hand-derived from the concrete patterns:

  * paper ids     : \b(\d\x7b5\x7d)\b              (both parsers, lines 17 and 69)
  * roll numbers  : \b(\d\x7b9,\x7d)\b             (line 70)
  * dates         : (\d\x7b2\x7d[.-]\d\x7b2\x7d[.-]\d\x7b4\x7d)   (line 35)
  * paper codes   : (\b[\w.]+?-\d\x7b3,4\x7d\b)       (line 18)
  * split label   : (Roll\s*No\.?\s*)  ignorecase (line 120)
  * name field    : Name\s+([A-Z\s]+?)\s+(Father|SUBJECTS|Roll|$) ignorecase (line 130)
  * name run      : ([A-Z][a-z]+(?:\s+[A-Z][a-z]+)*)  (line 169)

All scanners are written with explicit fuel (structural recursion) so
that every definition evaluates by kernel reduction on concrete input.
-/

namespace Scanner

/-- Python strings are modelled as lists of characters. -/
abbrev Str := List Char

/-- Python regex word character `\w` (ASCII): letter, digit or underscore. -/
def isWordChar (c : Char) : Bool :=
  c.isAlpha || c.isDigit || c = '_'

/-- Python regex whitespace `\s` (ASCII): space, tab, newline, CR, VT, FF. -/
def isSpaceChar (c : Char) : Bool :=
  c = ' ' || c = '\t' || c = '\n' || c = '\r' || c = '\x0b' || c = '\x0c'

/-- Substring `s[a:b]` of a Python string (clamping, as in Python). -/
def slice (s : Str) (a b : Nat) : Str :=
  (s.drop a).take (b - a)

/-- Length of the maximal run of characters satisfying `p` starting at `i`. -/
def runLenAt (p : Char → Bool) (s : Str) (i : Nat) : Nat :=
  ((s.drop i).takeWhile p).length

/-- Is the character at position `i` a digit (false past the end)? -/
def digitAt (s : Str) (i : Nat) : Bool :=
  match s[i]? with
  | some c => c.isDigit
  | none => false

/-- Word-boundary condition on the left of position `i` when the match
begins with a word character: start of string or a non-word char before. -/
def prevNonWord (s : Str) (i : Nat) : Bool :=
  if i = 0 then true
  else
    match s[i-1]? with
    | some c => !isWordChar c
    | none => true

/-- Word-boundary condition at position `i` when the match ends with a word
character just before `i`: end of string or a non-word char at `i`. -/
def afterNonWord (s : Str) (i : Nat) : Bool :=
  match s[i]? with
  | some c => !isWordChar c
  | none => true

/-- Does `\b\d\x7b5\x7d\b` match at position `i`?  Five digits, delimited by
word boundaries on both sides. -/
def fiveMatchAt (s : Str) (i : Nat) : Bool :=
  digitAt s i && digitAt s (i+1) && digitAt s (i+2) && digitAt s (i+3) &&
  digitAt s (i+4) && prevNonWord s i && afterNonWord s (i+5)

/-- Scan of `re.findall` for the paper-id pattern: try each position left to
right; on a match record the five digits and continue at the match end. -/
def findFiveAux (s : Str) : Nat → Nat → List Str
  | 0, _ => []
  | fuel+1, pos =>
    if fiveMatchAt s pos then
      slice s pos (pos+5) :: findFiveAux s fuel (pos+5)
    else
      findFiveAux s fuel (pos+1)

/-- `paper_id_pattern.findall`: all word-bounded five-digit tokens, in order.
Both parsers compile this same pattern (source lines 17 and 69). -/
def findFiveDigitTokens (s : Str) : List Str :=
  findFiveAux s (s.length + 1) 0

/-- End position of a `\b\d\x7b9,\x7d\b` match starting at `i`, if any: the
greedy quantifier takes the whole maximal digit run, which must have length
at least 9 and be word-bounded on both sides (shorter backtracks would put
the closing boundary between two digits and always fail). -/
def rollMatchEnd (s : Str) (i : Nat) : Option Nat :=
  let L := runLenAt Char.isDigit s i
  if prevNonWord s i = true ∧ 9 ≤ L ∧ afterNonWord s (i + L) = true then
    some (i + L)
  else
    none

/-- Scan of `re.finditer` for the roll-number pattern: (start, end) spans of
all non-overlapping matches, leftmost first. -/
def rollFinditerAux (s : Str) : Nat → Nat → List (Nat × Nat)
  | 0, _ => []
  | fuel+1, pos =>
    match rollMatchEnd s pos with
    | some e => (pos, e) :: rollFinditerAux s fuel e
    | none => rollFinditerAux s fuel (pos+1)

/-- All roll-number matches of `roll_pattern` in `s`, as (start, end) spans. -/
def rollFinditer (s : Str) : List (Nat × Nat) :=
  rollFinditerAux s (s.length + 1) 0

/-- `roll_pattern.search`: text of the first roll-number match, if any. -/
def rollSearchTok (s : Str) : Option Str :=
  match rollFinditer s with
  | [] => none
  | (a, b) :: _ => some (slice s a b)

/-- Is the character at `i` a date separator (`.` or `-`)? -/
def sepAt (s : Str) (i : Nat) : Bool :=
  match s[i]? with
  | some c => c = '.' || c = '-'
  | none => false

/-- Does the date pattern (two digits, separator, two digits, separator,
four digits — no word boundaries) match at position `i`? -/
def dateMatchAt (s : Str) (i : Nat) : Bool :=
  digitAt s i && digitAt s (i+1) && sepAt s (i+2) && digitAt s (i+3) &&
  digitAt s (i+4) && sepAt s (i+5) && digitAt s (i+6) && digitAt s (i+7) &&
  digitAt s (i+8) && digitAt s (i+9)

/-- `re.search` for the date pattern: leftmost match, as the matched
ten-character substring. -/
def dateSearch (s : Str) : Option Str :=
  match (List.range (s.length + 1)).find? (fun i => dateMatchAt s i) with
  | some i => some (slice s i (i+10))
  | none => none

/-- `date_match.group(1).replace('-', '.')`: every dash becomes a dot. -/
def normalizeDate (d : Str) : Str :=
  d.map (fun c => if c = '-' then '.' else c)

/-- Character class `[\w.]` of the paper-code pattern. -/
def isCodeClass (c : Char) : Bool :=
  isWordChar c || c = '.'

/-- Is the character at `i` a word character (false past the end)? -/
def wordAt (s : Str) (i : Nat) : Bool :=
  match s[i]? with
  | some c => isWordChar c
  | none => false

/-- Is there a word character just before position `i`? -/
def wordBefore (s : Str) (i : Nat) : Bool :=
  if i = 0 then false else wordAt s (i-1)

/-- Generic `\b`: word-ness changes between the previous and current position. -/
def atWordBoundary (s : Str) (i : Nat) : Bool :=
  wordBefore s i != wordAt s i

/-- End of a paper-code match `\b[\w.]+?-\d\x7b3,4\x7d\b` starting at `i`.  The
lazy class run cannot cross a dash (dash is outside the class), so the run
extent is forced: the maximal `[\w.]` run must be nonempty and be followed
by a dash; the greedy digit part tries four digits before three, each with
a closing word boundary. -/
def codeMatchEnd (s : Str) (i : Nat) : Option Nat :=
  if atWordBoundary s i = true then
    let k := runLenAt isCodeClass s i
    if 1 ≤ k ∧ s[i + k]? = some '-' then
      let p := i + k + 1
      if digitAt s p && digitAt s (p+1) && digitAt s (p+2) && digitAt s (p+3)
         && atWordBoundary s (p+4) then
        some (p+4)
      else if digitAt s p && digitAt s (p+1) && digitAt s (p+2)
              && atWordBoundary s (p+3) then
        some (p+3)
      else
        none
    else
      none
  else
    none

/-- `code_pattern.search`: leftmost paper-code match, as matched text. -/
def codeSearch (s : Str) : Option Str :=
  (List.range (s.length + 1)).findSome?
    (fun i => (codeMatchEnd s i).map (fun e => slice s i e))

/-- Does the literal string `pat` occur at position `i` of `s`? -/
def litMatchAt (s : Str) (i : Nat) : Str → Bool
  | [] => true
  | c :: r => s[i]? = some c && litMatchAt s (i+1) r

/-- Does the literal string `pat` occur at position `i` of `s`, comparing
characters case-insensitively (`re.IGNORECASE`)? -/
def litMatchAtCI (s : Str) (i : Nat) : Str → Bool
  | [] => true
  | c :: r =>
    (match s[i]? with
     | some d => d.toLower = c.toLower
     | none => false) && litMatchAtCI s (i+1) r

/-- Python `str.find` / `in`: position of the first occurrence of `pat`. -/
def substrFind (s pat : Str) : Option Nat :=
  (List.range (s.length + 1)).find? (fun i => litMatchAt s i pat)

/-- Python `str.find` result: index of first occurrence, or -1. -/
def pyFind (s pat : Str) : Int :=
  match substrFind s pat with
  | some i => (i : Int)
  | none => -1

/-- Python slice `s[:n]` with a possibly negative bound. -/
def pySliceTo (s : Str) (n : Int) : Str :=
  if n < 0 then s.take (s.length - n.natAbs) else s.take n.toNat

/-- Strip characters satisfying `p` from both ends (Python `str.strip`). -/
def stripChars (p : Char → Bool) (s : Str) : Str :=
  ((s.dropWhile p).reverse.dropWhile p).reverse

/-- Python `str.strip()` (whitespace both ends). -/
def stripWS (s : Str) : Str :=
  stripChars isSpaceChar s

/-- Python `str.strip` with the two characters space and dash (both ends). -/
def stripSpaceDash (s : Str) : Str :=
  stripChars (fun c => c = ' ' || c = '-') s

/-- `re.sub(r'\s+', ' ', s)`: auxiliary with a flag telling whether the
previous character was whitespace (whose run already emitted one space). -/
def collapseWSAux : Bool → Str → Str
  | _, [] => []
  | prevSp, c :: r =>
    if isSpaceChar c then
      if prevSp then collapseWSAux true r else ' ' :: collapseWSAux true r
    else
      c :: collapseWSAux false r

/-- `re.sub(r'\s+', ' ', s)`: collapse every whitespace run to one space. -/
def collapseWS (s : Str) : Str :=
  collapseWSAux false s

/-- Python `text.split('\n')`: auxiliary accumulating the current piece
in reverse. -/
def splitOnNLAux (acc : Str) : Str → List Str
  | [] => [acc.reverse]
  | c :: r =>
    if c = '\n' then acc.reverse :: splitOnNLAux [] r
    else splitOnNLAux (c :: acc) r

/-- Python `text.split('\n')` (empty pieces kept). -/
def splitOnNL (s : Str) : List Str :=
  splitOnNLAux [] s

/-- One date-sheet entry: the tuple `(date, subject, paper_code)`. -/
structure ExamEntry where
  date : Str
  subject : Str
  code : Str
  deriving DecidableEq, Repr

/-- The `exam_map` dict: an insertion-ordered association list. -/
abbrev ExamMap := List (Str × ExamEntry)

/-- Python dict assignment `d[k] = v`: overwrite in place if the key is
present (keys are unique by construction), append otherwise. -/
def mapInsert : ExamMap → Str → ExamEntry → ExamMap
  | [], k, v => [(k, v)]
  | q :: rest, k, v =>
    if q.1 = k then (k, v) :: rest else q :: mapInsert rest k v

/-- Python `k in d` / `d[k]`: lookup by key. -/
def mapLookup : ExamMap → Str → Option ExamEntry
  | [], _ => none
  | q :: rest, k => if q.1 = k then some q.2 else mapLookup rest k

/-- `for pid in paper_ids: exam_map[pid] = (current_date, subject, paper_code)`. -/
def insertEntries (m : ExamMap) (pids : List Str) (e : ExamEntry) : ExamMap :=
  pids.foldl (fun m p => mapInsert m p e) m

/-- The entry stored for every paper id found on a qualifying line
(source lines 44-58): paper code is the first code-pattern match;
subject is the text before the paper code if one was found in the line,
else the text before the first occurrence of the first paper id;
whitespace is collapsed and surrounding spaces/dashes stripped. -/
def entryForLine (date : Str) (line : Str) : ExamEntry :=
  let pids := findFiveDigitTokens line
  let code := match codeSearch line with
    | some c => c
    | none => []
  let subject0 :=
    if code ≠ [] ∧ (substrFind line code).isSome then
      stripWS (line.take ((substrFind line code).getD 0))
    else if pids ≠ [] then
      stripWS (pySliceTo line (pyFind line (pids.headD [])))
    else
      line
  ⟨date, stripSpaceDash (collapseWS subject0), code⟩

/-- The `current_date` update of one line (source lines 35-38): a date match
anywhere in the line replaces the context with the normalized match, else
the context is kept. -/
def dateAfter (cur : Option Str) (line : Str) : Option Str :=
  match dateSearch line with
  | some d => some (normalizeDate d)
  | none => cur

/-- One iteration of the date-sheet scanning loop (source lines 28-60),
acting on the state `(current_date, exam_map)`. -/
def processLine (st : Option Str × ExamMap) (rawLine : Str) : Option Str × ExamMap :=
  let line := stripWS rawLine
  if line = [] then st
  else
    let cur := dateAfter st.1 line
    match cur with
    | none => (none, st.2)
    | some date =>
      let pids := findFiveDigitTokens line
      if pids = [] then (cur, st.2)
      else (cur, insertEntries st.2 pids (entryForLine date line))

/-- The date-sheet scanning loop over all extracted lines, from the initial
state (no current date, empty map). -/
def parseDateSheetLines (lines : List Str) : Option Str × ExamMap :=
  lines.foldl processLine (none, [])

/-- Line extraction of `parse_date_sheet` (source lines 20-25): pages with
extractable text contribute their lines, in order. -/
def pagesToLines (pages : List (Option Str)) : List Str :=
  pages.foldl
    (fun acc t =>
      match t with
      | some s => if s = [] then acc else acc ++ splitOnNL s
      | none => acc)
    []

/-- `parse_date_sheet`: the exam map built from the page texts of the document. -/
def parse_date_sheet (pages : List (Option Str)) : ExamMap :=
  (parseDateSheetLines (pagesToLines pages)).2

/-- Messages `parse_date_sheet` reports to the user: the source body of
`parse_date_sheet` (lines 14-62) contains no `st.warning`, `st.info` or
other logging call, so the emitted message list is empty on every input. -/
def parse_date_sheet_log (_pages : List (Option Str)) : List Str :=
  []

/-- One student record. -/
structure Student where
  roll : Str
  name : Str
  papers : List Str
  deriving DecidableEq, Repr

/-- One output row of the merged schedule. -/
structure ScheduleRow where
  roll : Str
  name : Str
  date : Str
  subject : Str
  code : Str
  pid : Str
  deriving DecidableEq, Repr

/-- The row emitted for one (student, paper id) pair (source lines 188-206):
the fields of the matched entry on a hit, sentinel values on a miss. -/
def rowFor (m : ExamMap) (s : Student) (pid : Str) : ScheduleRow :=
  match mapLookup m pid with
  | some e => ⟨s.roll, s.name, e.date, e.subject, e.code, pid⟩
  | none => ⟨s.roll, s.name, "NOT FOUND".toList, "UNKNOWN".toList, [], pid⟩

/-- `build_schedule` (source lines 182-207): one row per (student, paper id)
pair, students in given order, the paper ids of each student in given order. -/
def build_schedule (m : ExamMap) (students : List Student) : List ScheduleRow :=
  (students.map (fun s => s.papers.map (rowFor m s))).flatten

/-- `full_text` accumulation of `parse_roll_list` (source lines 73-78):
each page with extractable text contributes its text plus a newline. -/
def buildFullText (pages : List (Option Str)) : Str :=
  pages.foldl
    (fun acc t =>
      match t with
      | some s => if s = [] then acc else acc ++ s ++ ['\n']
      | none => acc)
    []

/-- `list(dict.fromkeys(l))`: deduplicate keeping first occurrences in order. -/
def dedupKeepFirst (l : List Str) : List Str :=
  l.foldl (fun acc x => if x ∈ acc then acc else acc ++ [x]) []

/-- Python `str(c) if c else ""` on a table cell. -/
def cellStr (c : Option Str) : Str :=
  c.getD []

/-- `" ".join(...)`: join pieces with single spaces. -/
def joinSpace : List Str → Str
  | [] => []
  | [s] => s
  | s :: r => s ++ (' ' :: joinSpace r)

/-- `row_str` of the tabular strategy (source line 89): truthy cells joined
with spaces. -/
def rowStr (row : List (Option Str)) : Str :=
  joinSpace (row.filterMap (fun c =>
    match c with
    | some s => if s = [] then none else some s
    | none => none))

/-- Candidate-name condition of the tabular strategy (source line 100):
the cell text is nonempty, contains no roll-number match, and is longer
than two characters. -/
def cellGood (c : Option Str) : Bool :=
  !(cellStr c).isEmpty && (rollSearchTok (cellStr c)).isNone
    && decide (2 < (cellStr c).length)

/-- Name assignment of the tabular strategy (source lines 97-104): the
stripped text of the first qualifying cell; `UNKNOWN` when no cell
qualifies or the stripped text is empty. -/
def tabularName (row : List (Option Str)) : Str :=
  let name := match row.find? cellGood with
    | some c => stripWS (cellStr c)
    | none => []
  if name = [] then "UNKNOWN".toList else name

/-- One table row of the tabular strategy (source lines 86-114): skip empty
rows; require a roll-number match in the joined row text and at least one
paper id across it. -/
def tabularRowStudent (row : List (Option Str)) : Option Student :=
  if row = [] then none
  else
    match rollSearchTok (rowStr row) with
    | none => none
    | some roll =>
      if dedupKeepFirst (findFiveDigitTokens (rowStr row)) = [] then none
      else some ⟨roll, tabularName row,
        dedupKeepFirst (findFiveDigitTokens (rowStr row))⟩

/-- The tabular strategy over the extracted tables of all pages
(source lines 82-114). -/
def tabularStudents (tablesByPage : List (List (List (List (Option Str))))) :
    List Student :=
  ((tablesByPage.map (fun tables =>
    (tables.map (fun table => table.filterMap tabularRowStudent)).flatten)).flatten)

/-- End of a `Roll\s*No\.?\s*` (ignorecase) match starting at `i`: the
literal `Roll`, greedy whitespace, literal `No`, an optional dot, greedy
whitespace (no backtracking is possible: `\s` and the following literal
characters are disjoint). -/
def rollLabelEnd (s : Str) (i : Nat) : Option Nat :=
  if litMatchAtCI s i ("roll".toList) then
    let p := i + 4 + runLenAt isSpaceChar s (i + 4)
    if litMatchAtCI s p ("no".toList) then
      let q := p + 2
      let q2 := if s[q]? = some '.' then q + 1 else q
      some (q2 + runLenAt isSpaceChar s q2)
    else none
  else none

/-- All (start, end) spans of `Roll No` label matches, leftmost first,
non-overlapping (matches are never empty, so the scan always advances). -/
def rollLabelMatchesAux (s : Str) : Nat → Nat → List (Nat × Nat)
  | 0, _ => []
  | fuel+1, pos =>
    match rollLabelEnd s pos with
    | some e => (pos, e) :: rollLabelMatchesAux s fuel e
    | none => rollLabelMatchesAux s fuel (pos+1)

/-- Pieces of `re.split` with a capturing group: text before each match,
then the matched separator, alternating, then the tail. -/
def splitPieces (s : Str) : Nat → List (Nat × Nat) → List Str
  | pos, [] => [s.drop pos]
  | pos, (a, b) :: r => slice s pos a :: slice s a b :: splitPieces s b r

/-- The `re.split` on the captured label `(Roll\s*No\.?\s*)` with
IGNORECASE (source line 120). -/
def reSplitRoll (s : Str) : List Str :=
  splitPieces s 0 (rollLabelMatchesAux s (s.length + 1) 0)

/-- The per-student blocks of the delimited strategy (source lines 121-122):
each separator chunk (odd index) concatenated with the following chunk. -/
def delimitedBlocks (s : Str) : List Str :=
  let chunks := reSplitRoll s
  (List.range chunks.length).filterMap (fun i =>
    if i % 2 = 1 then
      some (chunks.getD i [] ++
        (if i + 1 < chunks.length then chunks.getD (i+1) [] else []))
    else none)

/-- Class `[A-Z\s]` under `re.IGNORECASE`: any letter or whitespace. -/
def isNameClass (c : Char) : Bool :=
  c.isAlpha || isSpaceChar c

/-- The `$` anchor (no MULTILINE): end of string, or just before a final
newline. -/
def dollarAt (s : Str) (q : Nat) : Bool :=
  q = s.length || (q + 1 = s.length && s[q]? = some '\n')

/-- The closing alternation `(Father|SUBJECTS|Roll|$)` under IGNORECASE,
tried in order at position `q`. -/
def altOrEndAt (s : Str) (q : Nat) : Bool :=
  litMatchAtCI s q ("father".toList) || litMatchAtCI s q ("subjects".toList)
    || litMatchAtCI s q ("roll".toList) || dollarAt s q

/-- The list `[n, n-1, ..., 1]` (greedy backtracking order). -/
def descRange (n : Nat) : List Nat :=
  (List.range n).map (fun k => n - k)

/-- The list `[1, 2, ..., n]` (lazy expansion order). -/
def ascRange (n : Nat) : List Nat :=
  (List.range n).map (fun k => k + 1)

/-- One match attempt of `Name\s+([A-Z\s]+?)\s+(Father|SUBJECTS|Roll|$)`
(ignorecase) at position `i`, with Perl-style backtracking: the first
`\s+` is greedy (longest first), the captured class run is lazy (shortest
first), the second `\s+` is greedy, the alternation is tried in order.
Returns the captured group. -/
def nameAttemptAt (s : Str) (i : Nat) : Option Str :=
  if litMatchAtCI s i ("name".toList) then
    let base := i + 4
    (descRange (runLenAt isSpaceChar s base)).findSome? (fun a =>
      let gs := base + a
      (ascRange (runLenAt isNameClass s gs)).findSome? (fun g =>
        let p := gs + g
        (descRange (runLenAt isSpaceChar s p)).findSome? (fun b =>
          if altOrEndAt s (p + b) then some (slice s gs p) else none)))
  else none

/-- `re.search` for the labeled name field (source line 130): leftmost
successful attempt. -/
def nameFieldSearch (s : Str) : Option Str :=
  (List.range (s.length + 1)).findSome? (nameAttemptAt s)

/-- The fallback name scan of the delimited strategy (source lines 134-141):
the first line containing the literal `Roll No` and having a successor
yields the stripped successor line. -/
def firstRollNoSucc : List Str → Str
  | [] => []
  | l :: rest =>
    if (substrFind l ("Roll No".toList)).isSome && !rest.isEmpty then
      stripWS (rest.headD [])
    else firstRollNoSucc rest

/-- Name extraction of the delimited strategy (source lines 129-141). -/
def delimitedName (block : Str) : Str :=
  match nameFieldSearch block with
  | some nm => stripWS nm
  | none =>
    let name := firstRollNoSucc (splitOnNL block)
    if name = [] then "UNKNOWN".toList else name

/-- The delimited-block text strategy (source lines 117-151). -/
def delimitedStudents (full_text : Str) : List Student :=
  (delimitedBlocks full_text).filterMap (fun block =>
    match rollSearchTok block with
    | none => none
    | some roll =>
      let pids := dedupKeepFirst (findFiveDigitTokens block)
      if roll ≠ [] ∧ pids ≠ [] then some ⟨roll, delimitedName block, pids⟩
      else none)

/-- Is the character at `i` an uppercase letter? -/
def upperAt (s : Str) (i : Nat) : Bool :=
  match s[i]? with
  | some c => c.isUpper
  | none => false

/-- End of a `[A-Z][a-z]+` word starting at `i`: an uppercase letter
followed by a maximal nonempty lowercase run. -/
def capWordEnd (s : Str) (i : Nat) : Option Nat :=
  if upperAt s i then
    let L := runLenAt Char.isLower s (i+1)
    if 1 ≤ L then some (i + 1 + L) else none
  else none

/-- Greedy extension `(?:\s+[A-Z][a-z]+)*` from end position `e`: repeat
(nonempty whitespace run, capitalized word) as long as possible. -/
def capRunExtendAux (s : Str) : Nat → Nat → Nat
  | 0, e => e
  | fuel+1, e =>
    let w := runLenAt isSpaceChar s e
    if 1 ≤ w then
      match capWordEnd s (e + w) with
      | some e2 => capRunExtendAux s fuel e2
      | none => e
    else e

/-- The `re.search` for `([A-Z][a-z]+(?:\s+[A-Z][a-z]+)*)` (source line 169):
leftmost capitalized word, greedily extended. -/
def capRunSearch (s : Str) : Option Str :=
  match (List.range (s.length + 1)).findSome?
      (fun i => (capWordEnd s i).map (fun e => (i, e))) with
  | some (i, e) => some (slice s i (capRunExtendAux s (s.length + 1) e))
  | none => none

/-- The context window of the brute-force strategy (source lines 160-163):
`full_text[max(0, start-1000) : min(len, end+1000)]` around the
roll-number match `mi` (truncated subtraction is the Python `max(0, ...)`). -/
def bruteWindow (t : Str) (mi : Nat × Nat) : Str :=
  slice t (mi.1 - 1000) (min t.length (mi.2 + 1000))

/-- `context[:match.start()-start]`: the part of the window before the
roll number (source line 169). -/
def bruteBefore (t : Str) (mi : Nat × Nat) : Str :=
  (bruteWindow t mi).take (mi.1 - (mi.1 - 1000))

/-- The `if match else UNKNOWN` idiom of the source (lines 167-170): the
matched name when the search succeeded, the sentinel otherwise. -/
def nameOrUnknown (o : Option Str) : Str :=
  match o with
  | some nm => nm
  | none => "UNKNOWN".toList

/-- The brute-force context-window strategy (source lines 154-175): for
every roll-number match, take up to 1000 characters of context on each
side, collect the deduplicated paper ids of the window, and accept the
candidate only if there is at least one; the name is the first
capitalized-word run in the context before the roll number, `UNKNOWN`
when there is none. -/
def bruteForceStudents (t : Str) : List Student :=
  (rollFinditer t).filterMap (fun mi =>
    if dedupKeepFirst (findFiveDigitTokens (bruteWindow t mi)) = [] then none
    else
      some ⟨slice t mi.1 mi.2,
        nameOrUnknown (capRunSearch (bruteBefore t mi)),
        dedupKeepFirst (findFiveDigitTokens (bruteWindow t mi))⟩)

/-- Finditer-style enumeration of all `[A-Z][a-z]+(?:\s+[A-Z][a-z]+)*`
matches, leftmost first, non-overlapping. -/
def capRunFinditerAux (s : Str) : Nat → Nat → List Str
  | 0, _ => []
  | fuel+1, pos =>
    match capWordEnd s pos with
    | some e =>
      let e2 := capRunExtendAux s (s.length + 1) e
      slice s pos e2 :: capRunFinditerAux s fuel e2
    | none => capRunFinditerAux s fuel (pos+1)

/-- Modelled from the spec: "attempt to recover a name via the nearest
preceding run of capitalized words" — the last capitalized-word run of the
text that precedes the roll number.  (The `re.search` of the source instead
returns the first such run; this definition is the spec-side comparator.) -/
def nearestPrecedingCapRun (s : Str) : Option Str :=
  (capRunFinditerAux s (s.length + 1) 0).getLast?

/-- `parse_roll_list` (source lines 67-177) together with the messages it
shows (`st.info` at line 118, `st.warning` at line 155): the tabular
strategy runs unless `force_text`; each later strategy runs only when the
student list is still empty. -/
def parse_roll_list_core (pages : List (Option Str))
    (tablesByPage : List (List (List (List (Option Str))))) (force_text : Bool) :
    List Student × List Str :=
  let full_text := buildFullText pages
  let s1 := if force_text then [] else tabularStudents tablesByPage
  if s1 = [] then
    let s2 := delimitedStudents full_text
    if s2 = [] then
      (bruteForceStudents full_text,
        ["Table extraction gave no results - using text chunking.".toList,
         "Still no students - attempting brute force extraction.".toList])
    else (s2, ["Table extraction gave no results - using text chunking.".toList])
  else (s1, [])

/-- The student list returned by `parse_roll_list`. -/
def parse_roll_list (pages : List (Option Str))
    (tablesByPage : List (List (List (List (Option Str))))) (force_text : Bool) :
    List Student :=
  (parse_roll_list_core pages tablesByPage force_text).1

/-! Helper lemmas about the association-list exam map. -/

theorem mapLookup_mapInsert_self (m : ExamMap) (k : Str) (v : ExamEntry) :
    mapLookup (mapInsert m k v) k = some v := by
  induction m with
  | nil => simp [mapInsert, mapLookup]
  | cons q rest ih =>
    by_cases h : q.1 = k
    · simp [mapInsert, mapLookup, h]
    · simp [mapInsert, mapLookup, h, ih]

theorem mapLookup_mapInsert_ne (m : ExamMap) (k k' : Str) (v : ExamEntry)
    (h : k ≠ k') : mapLookup (mapInsert m k v) k' = mapLookup m k' := by
  induction m with
  | nil => simp [mapInsert, mapLookup, h]
  | cons q rest ih =>
    by_cases hq : q.1 = k
    · simp [mapInsert, mapLookup, hq, h, hq ▸ h]
    · simp [mapInsert, mapLookup, hq, ih]

theorem mapLookup_insertEntries_of_lookup (pids : List Str) (e : ExamEntry) :
    ∀ (m : ExamMap) (pid : Str), mapLookup m pid = some e →
      mapLookup (insertEntries m pids e) pid = some e := by
  induction pids with
  | nil => intro m pid hm; simpa [insertEntries] using hm
  | cons p rest ih =>
    intro m pid hm
    rw [insertEntries, List.foldl_cons]
    refine ih (mapInsert m p e) pid ?_
    by_cases hp : p = pid
    · subst hp; exact mapLookup_mapInsert_self m p e
    · rw [mapLookup_mapInsert_ne m p pid e hp]; exact hm

theorem mapLookup_insertEntries (pids : List Str) (e : ExamEntry) :
    ∀ (m : ExamMap) (pid : Str), pid ∈ pids →
      mapLookup (insertEntries m pids e) pid = some e := by
  induction pids with
  | nil => intro m pid hp; cases hp
  | cons p rest ih =>
    intro m pid hp
    rw [insertEntries, List.foldl_cons]
    rcases List.mem_cons.1 hp with h | h
    · subst h
      exact mapLookup_insertEntries_of_lookup rest e _ pid
        (mapLookup_mapInsert_self m pid e)
    · exact ih (mapInsert m p e) pid h

/-! Claim theorems. -/

/-- C1: for every exam map and every list of students, the number of rows
returned by `build_schedule` equals the sum of `len(paper_ids)` over all
students — each (student, paper id) enrollment pair produces exactly one
output row, matched or not. -/
theorem build_schedule_row_count (m : ExamMap) (students : List Student) :
    (build_schedule m students).length =
      (students.map (fun s => s.papers.length)).sum := by
  simp [build_schedule, List.length_flatten, List.map_map, Function.comp_def]

/-- C2: for every student whose paper id is absent from the exam map,
`build_schedule` emits a row with the sentinel values (`NOT FOUND` date,
`UNKNOWN` subject, empty code) rather than dropping the pair; and with an
empty exam map and one student enrolled in `54321`, the merge produces
exactly that one sentinel row, never zero rows. -/
theorem build_schedule_miss_sentinel :
    (∀ (m : ExamMap) (students : List Student) (s : Student) (pid : Str),
      s ∈ students → pid ∈ s.papers → mapLookup m pid = none →
      (⟨s.roll, s.name, "NOT FOUND".toList, "UNKNOWN".toList, [], pid⟩ :
        ScheduleRow) ∈ build_schedule m students) ∧
    build_schedule []
        [⟨"123456789".toList, "STUDENT".toList, ["54321".toList]⟩] =
      [⟨"123456789".toList, "STUDENT".toList, "NOT FOUND".toList,
        "UNKNOWN".toList, [], "54321".toList⟩] := by
  constructor
  · intro m students s pid hs hp hnone
    have hrow : (⟨s.roll, s.name, "NOT FOUND".toList, "UNKNOWN".toList, [],
        pid⟩ : ScheduleRow) = rowFor m s pid := by
      simp [rowFor, hnone]
    rw [hrow, build_schedule]
    exact List.mem_flatten.2
      ⟨s.papers.map (rowFor m s), List.mem_map_of_mem _ hs,
        List.mem_map_of_mem _ hp⟩
  · rfl

/-- Closed witness for C2: the sentinel row is a member of the concrete
one-student, empty-map merge. -/
theorem build_schedule_miss_sentinel_witness :
    (⟨"123456789".toList, "STUDENT".toList, "NOT FOUND".toList,
      "UNKNOWN".toList, [], "54321".toList⟩ : ScheduleRow) ∈
      build_schedule []
        [⟨"123456789".toList, "STUDENT".toList, ["54321".toList]⟩] :=
  build_schedule_miss_sentinel.1 []
    [⟨"123456789".toList, "STUDENT".toList, ["54321".toList]⟩]
    ⟨"123456789".toList, "STUDENT".toList, ["54321".toList]⟩
    ("54321".toList) (by decide) (by decide) rfl

/-- C5: every matched date is stored with its separators normalized to `.` —
the inputs `05-09-2025` and `05.09.2025` both leave the same stored current
date `05.09.2025`, and a normalized date never contains a dash. -/
theorem dateSheet_date_normalized :
    (parseDateSheetLines ["05-09-2025".toList]).1 = some ("05.09.2025".toList) ∧
    (parseDateSheetLines ["05.09.2025".toList]).1 = some ("05.09.2025".toList) ∧
    ∀ d : Str, '-' ∉ normalizeDate d := by
  refine ⟨by decide, by decide, ?_⟩
  intro d hm
  simp only [normalizeDate, List.mem_map] at hm
  obtain ⟨a, _, ha⟩ := hm
  by_cases h : a = '-' <;> simp [h] at ha

/-- C9: `parse_date_sheet` is deterministic — it is embedded as a pure
function of its input (the source reads only its argument and local
variables), so two runs on the same input produce identical mappings,
including key insertion order. -/
theorem parse_date_sheet_deterministic :
    ∀ pages : List (Option Str),
      parse_date_sheet pages = parse_date_sheet pages ∧
      parseDateSheetLines (pagesToLines pages) =
        parseDateSheetLines (pagesToLines pages) :=
  fun _ => ⟨rfl, rfl⟩

/-- Helper for C3: a line whose stripped text matches no date leaves a
no-date state unchanged (no entries, no date context). -/
theorem processLine_no_date (st : Option Str × ExamMap) (l : Str)
    (hcur : st.1 = none) (hd : dateSearch (stripWS l) = none) :
    processLine st l = (none, st.2) := by
  obtain ⟨cur, m⟩ := st
  simp only at hcur
  subst hcur
  by_cases hl : stripWS l = []
  · simp [processLine, hl]
  · simp [processLine, hl, dateAfter, hd]

/-- C3 (amended): lines containing paper identifiers that are scanned
before any date has been established contribute no entries, and the
identifiers are dropped for good — the whole pre-date prefix is as if it
were absent, so they are never retried against a later date; no warning is
reported (`parse_date_sheet` in the source contains no logging call), and
processing continues. -/
theorem dateSheet_pre_date_lines_dropped (pre rest : List Str)
    (h : ∀ l ∈ pre, dateSearch (stripWS l) = none) :
    parseDateSheetLines (pre ++ rest) = parseDateSheetLines rest ∧
    ∀ pages, parse_date_sheet_log pages = [] := by
  refine ⟨?_, fun _ => rfl⟩
  induction pre with
  | nil => simp
  | cons l pre ih =>
    have hst : processLine (none, ([] : ExamMap)) l = (none, []) :=
      processLine_no_date _ l rfl (h l (List.mem_cons_self l pre))
    calc parseDateSheetLines ((l :: pre) ++ rest)
        = (pre ++ rest).foldl processLine (processLine (none, []) l) := by
          rw [parseDateSheetLines, List.cons_append, List.foldl_cons]
      _ = parseDateSheetLines (pre ++ rest) := by
          rw [hst, parseDateSheetLines]
      _ = parseDateSheetLines rest :=
          ih (fun l hl => h l (List.mem_cons_of_mem _ hl))

/-- Closed witness for C3 (amended): a paper-id line before any date
contributes nothing, even though a later line establishes a date. -/
theorem dateSheet_pre_date_lines_dropped_witness :
    parseDateSheetLines
        (["English 12345".toList] ++ ["01.01.2025 Math 67890".toList]) =
      parseDateSheetLines ["01.01.2025 Math 67890".toList] ∧
    ∀ pages, parse_date_sheet_log pages = [] :=
  dateSheet_pre_date_lines_dropped _ _ (by decide)

/-- Helper for C4: inserting a list of keys, all with the same entry, makes
lookup of any key not in the list unchanged. -/
theorem mapLookup_insertEntries_not_mem (pids : List Str) (e : ExamEntry) :
    ∀ (m : ExamMap) (pid : Str), pid ∉ pids →
      mapLookup (insertEntries m pids e) pid = mapLookup m pid := by
  induction pids with
  | nil => intro m pid _; rfl
  | cons p rest ih =>
    intro m pid hp
    have h1 : pid ∉ rest := fun h => hp (List.mem_cons_of_mem _ h)
    have h2 : p ≠ pid := fun h => hp (h ▸ List.mem_cons_self p rest)
    calc mapLookup (insertEntries m (p :: rest) e) pid
        = mapLookup (insertEntries (mapInsert m p e) rest e) pid := rfl
      _ = mapLookup (mapInsert m p e) pid := ih (mapInsert m p e) pid h1
      _ = mapLookup m pid := mapLookup_mapInsert_ne m p pid e h2

/-- Helper for C4: a line whose stripped text does not contain `pid` among
its five-digit tokens leaves the lookup of `pid` unchanged. -/
theorem processLine_lookup_preserved (st : Option Str × ExamMap) (l : Str)
    (pid : Str) (h : pid ∉ findFiveDigitTokens (stripWS l)) :
    mapLookup (processLine st l).2 pid = mapLookup st.2 pid := by
  rw [processLine]
  by_cases hl : stripWS l = []
  · rw [if_pos hl]
  · rw [if_neg hl]
    cases hc : dateAfter st.1 (stripWS l) with
    | none => rfl
    | some date =>
      simp only
      by_cases hpids : findFiveDigitTokens (stripWS l) = []
      · rw [if_pos hpids]
      · rw [if_neg hpids]
        exact mapLookup_insertEntries_not_mem _ _ st.2 pid h

/-- Helper for C4: scanning further lines none of which contains `pid`
preserves the lookup of `pid`. -/
theorem foldl_lookup_preserved (pid : Str) :
    ∀ post : List Str, (∀ l ∈ post, pid ∉ findFiveDigitTokens (stripWS l)) →
      ∀ st : Option Str × ExamMap,
        mapLookup (List.foldl processLine st post).2 pid = mapLookup st.2 pid := by
  intro post
  induction post with
  | nil => intro _ st; rfl
  | cons l post ih =>
    intro h st
    rw [List.foldl_cons,
      ih (fun x hx => h x (List.mem_cons_of_mem _ hx)) (processLine st l),
      processLine_lookup_preserved st l pid (h l (List.mem_cons_self l post))]

/-- Helper for C4: a qualifying line (a date in scope after its own date
match, `pid` among its tokens) assigns the entry built from that line. -/
theorem processLine_assigns (st : Option Str × ExamMap) (rawLine pid d : Str)
    (hd : dateAfter st.1 (stripWS rawLine) = some d)
    (hp : pid ∈ findFiveDigitTokens (stripWS rawLine)) :
    mapLookup (processLine st rawLine).2 pid =
      some (entryForLine d (stripWS rawLine)) := by
  rw [processLine]
  have hl : stripWS rawLine ≠ [] := by
    intro hnil
    rw [hnil] at hp
    have hnone : findFiveDigitTokens ([] : Str) = [] := rfl
    rw [hnone] at hp
    exact List.not_mem_nil pid hp
  rw [if_neg hl, hd]
  simp only
  rw [if_neg (List.ne_nil_of_mem hp)]
  exact mapLookup_insertEntries _ _ _ _ hp

/-- C4: the final mapping reflects the last occurrence in document order —
whatever earlier lines assigned to a paper id, a later qualifying line (a
date in scope, the paper id among its five-digit tokens) followed only by
lines not mentioning the paper id leaves the mapping at the entry of that line. -/
theorem dateSheet_last_occurrence_wins (pre post : List Str) (rawLine : Str)
    (pid d : Str)
    (hd : dateAfter (parseDateSheetLines pre).1 (stripWS rawLine) = some d)
    (hp : pid ∈ findFiveDigitTokens (stripWS rawLine))
    (hpost : ∀ l ∈ post, pid ∉ findFiveDigitTokens (stripWS l)) :
    mapLookup (parseDateSheetLines (pre ++ rawLine :: post)).2 pid =
      some (entryForLine d (stripWS rawLine)) := by
  have hsplit : parseDateSheetLines (pre ++ rawLine :: post) =
      List.foldl processLine (processLine (parseDateSheetLines pre) rawLine)
        post := by
    rw [parseDateSheetLines, List.foldl_append, List.foldl_cons]
    rfl
  rw [hsplit, foldl_lookup_preserved pid post hpost _]
  exact processLine_assigns _ _ _ _ hd hp

/-- Closed witness for C4: paper id `99999` listed under `01.01.2025` and
later under `02.01.2025` (with a further unrelated dated line after it)
ends up mapped to the entry whose date is `02.01.2025`. -/
theorem dateSheet_last_occurrence_wins_witness :
    mapLookup (parseDateSheetLines
        (["01.01.2025 Alpha 99999".toList] ++
          "02.01.2025 Beta 99999".toList :: ["03.01.2025 Gamma 11111".toList])).2
        ("99999".toList) =
      some (entryForLine ("02.01.2025".toList)
        (stripWS "02.01.2025 Beta 99999".toList)) :=
  dateSheet_last_occurrence_wins ["01.01.2025 Alpha 99999".toList]
    ["03.01.2025 Gamma 11111".toList]
    ("02.01.2025 Beta 99999".toList) ("99999".toList) ("02.01.2025".toList)
    (by decide) (by decide) (by decide)

/-- Helper for C10: every token produced by the findall scan sits at some
position at which the bounded five-digit pattern matches. -/
theorem findFiveAux_mem (s : Str) :
    ∀ (fuel pos : Nat) (t : Str), t ∈ findFiveAux s fuel pos →
      ∃ i, pos ≤ i ∧ fiveMatchAt s i = true ∧ t = slice s i (i+5) := by
  intro fuel
  induction fuel with
  | zero =>
    intro pos t ht
    exact absurd ht (List.not_mem_nil t)
  | succ n ih =>
    intro pos t ht
    rw [findFiveAux] at ht
    by_cases h : fiveMatchAt s pos
    · rw [if_pos h] at ht
      rcases List.mem_cons.1 ht with h1 | h1
      · exact ⟨pos, Nat.le_refl _, h, h1⟩
      · obtain ⟨i, hi, hm, he⟩ := ih (pos+5) t h1
        exact ⟨i, by omega, hm, he⟩
    · rw [if_neg h] at ht
      obtain ⟨i, hi, hm, he⟩ := ih (pos+1) t ht
      exact ⟨i, by omega, hm, he⟩

/-- Helper: a true `digitAt` test exhibits a digit character. -/
theorem digitAt_spec (s : Str) (j : Nat) (h : digitAt s j = true) :
    ∃ c, s[j]? = some c ∧ c.isDigit = true := by
  unfold digitAt at h
  cases hc : s[j]? with
  | none => rw [hc] at h; cases h
  | some c => rw [hc] at h; exact ⟨c, rfl, h⟩

/-- Helper: a non-word character is in particular a non-digit. -/
theorem not_word_not_digit (c : Char) (h : isWordChar c = false) :
    c.isDigit = false := by
  cases hd : c.isDigit
  · rfl
  · exfalso
    rw [isWordChar, hd] at h
    simp at h

/-- C10: paper-id extraction (the pattern shared by both parsers) returns
only runs of exactly five digits bounded by non-digit characters (or the
string edge) on both sides; in particular a nine-or-more-digit roll number
contributes none of its five-digit substrings, as the concrete conjunct
shows. -/
theorem paper_id_tokens_bounded :
    (∀ (s t : Str), t ∈ findFiveDigitTokens s →
      t.length = 5 ∧
      (∀ j, j < 5 → ∃ c, t[j]? = some c ∧ c.isDigit = true) ∧
      ∃ i, t = slice s i (i+5) ∧
        (i = 0 ∨ ∀ c, s[i-1]? = some c → c.isDigit = false) ∧
        (∀ c, s[i+5]? = some c → c.isDigit = false)) ∧
    findFiveDigitTokens ("ab 123456789 cd".toList) = [] := by
  constructor
  · intro s t ht
    obtain ⟨i, _, hm, he⟩ := findFiveAux_mem s (s.length + 1) 0 t ht
    simp only [fiveMatchAt, Bool.and_eq_true] at hm
    obtain ⟨⟨⟨⟨⟨⟨h0, h1⟩, h2⟩, h3⟩, h4⟩, hprev⟩, hafter⟩ := hm
    obtain ⟨c4, hc4, _⟩ := digitAt_spec s (i+4) h4
    have hlen4 : i + 4 < s.length := (List.getElem?_eq_some.1 hc4).1
    have hlen : t.length = 5 := by
      rw [he]
      simp only [slice, List.length_take, List.length_drop]
      omega
    refine ⟨hlen, ?_, i, he, ?_, ?_⟩
    · intro j hj
      have hjt : t[j]? = s[i+j]? := by
        rw [he, slice, List.getElem?_take_of_lt (by omega), List.getElem?_drop]
      rw [hjt]
      interval_cases j
      · simpa using digitAt_spec s i h0
      · exact digitAt_spec s (i+1) h1
      · exact digitAt_spec s (i+2) h2
      · exact digitAt_spec s (i+3) h3
      · exact digitAt_spec s (i+4) h4
    · by_cases hi : i = 0
      · exact Or.inl hi
      · refine Or.inr (fun c hc => ?_)
        rw [prevNonWord, if_neg hi, hc] at hprev
        exact not_word_not_digit c (by simpa using hprev)
    · intro c hc
      rw [afterNonWord, hc] at hafter
      exact not_word_not_digit c (by simpa using hafter)
  · decide

/-- Closed witness for C10, at `s = "x 54321 y"` and token `"54321"`. -/
theorem paper_id_tokens_bounded_witness :
    ("54321".toList : Str).length = 5 ∧
    (∀ j, j < 5 → ∃ c, ("54321".toList : Str)[j]? = some c ∧ c.isDigit = true) ∧
    ∃ i, ("54321".toList : Str) = slice ("x 54321 y".toList) i (i+5) ∧
      (i = 0 ∨ ∀ c, ("x 54321 y".toList : Str)[i-1]? = some c →
        c.isDigit = false) ∧
      (∀ c, ("x 54321 y".toList : Str)[i+5]? = some c → c.isDigit = false) :=
  paper_id_tokens_bounded.1 ("x 54321 y".toList) ("54321".toList) (by decide)

/-- C3 counterexample: on a concrete input whose first line carries paper id
`12345` before any date, the identifier is silently lost (no entry, and the
emitted message list of the parser is empty, contradicting the claimed
recoverable warning), while the later dated line is still processed. -/
theorem dateSheet_silent_drop_cex :
    mapLookup (parseDateSheetLines
        ["English 12345".toList, "01.01.2025 Math 67890".toList]).2
        ("12345".toList) = none ∧
    mapLookup (parseDateSheetLines
        ["English 12345".toList, "01.01.2025 Math 67890".toList]).2
        ("67890".toList) =
      some ⟨"01.01.2025".toList, "01.01.2025 Math".toList, []⟩ ∧
    parse_date_sheet_log
        [some "English 12345\n01.01.2025 Math 67890".toList] = [] :=
  ⟨by decide, by decide, rfl⟩

/-- Helper for C6 and C7: when the tabular pass (as invoked) yields no
students, `parse_roll_list` returns the delimited-strategy result when that
is nonempty, and the brute-force result otherwise. -/
theorem parse_roll_list_fallback_eq (pages : List (Option Str))
    (tablesByPage : List (List (List (List (Option Str))))) (force_text : Bool)
    (h1 : (if force_text then [] else tabularStudents tablesByPage) = []) :
    parse_roll_list pages tablesByPage force_text =
      (if delimitedStudents (buildFullText pages) = [] then
        bruteForceStudents (buildFullText pages)
      else delimitedStudents (buildFullText pages)) := by
  by_cases hd : delimitedStudents (buildFullText pages) = [] <;>
    simp [parse_roll_list, parse_roll_list_core, h1, hd]

/-- C6 (amended): on input where the tabular strategy yields zero students,
`parse_roll_list` returns the same student list as the delimited-block
strategy on the concatenated text, provided the delimited-block strategy
itself yields at least one student; when it too yields zero students, the
result of the brute-force strategy is returned instead. -/
theorem roll_list_fallback_chain (pages : List (Option Str))
    (tablesByPage : List (List (List (List (Option Str)))))
    (h : tabularStudents tablesByPage = []) :
    parse_roll_list pages tablesByPage false =
      (if delimitedStudents (buildFullText pages) = [] then
        bruteForceStudents (buildFullText pages)
      else delimitedStudents (buildFullText pages)) :=
  parse_roll_list_fallback_eq pages tablesByPage false (by simpa using h)

/-- Closed witness for C6 (amended): a concrete input whose delimited pass
succeeds, so the parser output is the delimited output. -/
theorem roll_list_fallback_chain_witness :
    parse_roll_list [some ("Roll No 123456789\nJOHN DOE\n54321".toList)] [] false =
      (if delimitedStudents
          (buildFullText [some ("Roll No 123456789\nJOHN DOE\n54321".toList)]) = []
       then bruteForceStudents
          (buildFullText [some ("Roll No 123456789\nJOHN DOE\n54321".toList)])
       else delimitedStudents
          (buildFullText [some ("Roll No 123456789\nJOHN DOE\n54321".toList)])) :=
  roll_list_fallback_chain _ _ rfl

/-- C6 counterexample: with no tables and text `John 123456789 54321`, the
tabular and delimited strategies both yield zero students, yet
`parse_roll_list` returns the brute-force student — so its output differs
from the output of the delimited-block strategy on the same text. -/
theorem roll_list_fallback_cex :
    tabularStudents [] = [] ∧
    delimitedStudents (buildFullText [some ("John 123456789 54321".toList)]) = [] ∧
    parse_roll_list [some ("John 123456789 54321".toList)] [] false =
      [⟨"123456789".toList, "John".toList, ["54321".toList]⟩] ∧
    parse_roll_list [some ("John 123456789 54321".toList)] [] false ≠
      delimitedStudents (buildFullText [some ("John 123456789 54321".toList)]) :=
  ⟨rfl, by decide, by decide, by decide⟩

/-- C7 (amended): when the first two strategies yield zero students, every
student emitted by `parse_roll_list` comes from a roll-number match whose
context window contains at least one paper id, and its name is the first
(leftmost) capitalized-word run of the window text before the roll number —
not the nearest preceding one — with `UNKNOWN` when no such run exists. -/
theorem brute_name_is_first_cap_run (pages : List (Option Str))
    (tablesByPage : List (List (List (List (Option Str))))) (force_text : Bool)
    (h1 : (if force_text then [] else tabularStudents tablesByPage) = [])
    (h2 : delimitedStudents (buildFullText pages) = []) :
    ∀ st ∈ parse_roll_list pages tablesByPage force_text,
      ∃ mi ∈ rollFinditer (buildFullText pages),
        dedupKeepFirst (findFiveDigitTokens
          (bruteWindow (buildFullText pages) mi)) ≠ [] ∧
        st.roll = slice (buildFullText pages) mi.1 mi.2 ∧
        st.papers = dedupKeepFirst (findFiveDigitTokens
          (bruteWindow (buildFullText pages) mi)) ∧
        st.name = nameOrUnknown (capRunSearch (bruteBefore (buildFullText pages) mi)) := by
  intro st hst
  obtain ⟨sr, sn, sp⟩ := st
  rw [parse_roll_list_fallback_eq pages tablesByPage force_text h1,
    if_pos h2, bruteForceStudents] at hst
  obtain ⟨mi, hmi, heq⟩ := List.mem_filterMap.1 hst
  by_cases hp : dedupKeepFirst (findFiveDigitTokens
      (bruteWindow (buildFullText pages) mi)) = []
  · rw [if_pos hp] at heq
    cases heq
  · rw [if_neg hp] at heq
    simp only [Option.some.injEq, Student.mk.injEq] at heq
    obtain ⟨hr, hn, hpap⟩ := heq
    exact ⟨mi, hmi, hp, hr.symm, hpap.symm, hn.symm⟩

/-- Closed witness for C7 (amended), instantiated at the concrete input
`Alice and Bob 123456789 54321` and its emitted student. -/
theorem brute_name_is_first_cap_run_witness :
    ∃ mi ∈ rollFinditer (buildFullText
        [some ("Alice and Bob 123456789 54321".toList)]),
      dedupKeepFirst (findFiveDigitTokens (bruteWindow
        (buildFullText [some ("Alice and Bob 123456789 54321".toList)]) mi)) ≠ [] ∧
      (⟨"123456789".toList, "Alice".toList, ["54321".toList]⟩ : Student).roll =
        slice (buildFullText [some ("Alice and Bob 123456789 54321".toList)])
          mi.1 mi.2 ∧
      (⟨"123456789".toList, "Alice".toList, ["54321".toList]⟩ : Student).papers =
        dedupKeepFirst (findFiveDigitTokens (bruteWindow
          (buildFullText [some ("Alice and Bob 123456789 54321".toList)]) mi)) ∧
      (⟨"123456789".toList, "Alice".toList, ["54321".toList]⟩ : Student).name =
        nameOrUnknown (capRunSearch (bruteBefore
          (buildFullText [some ("Alice and Bob 123456789 54321".toList)]) mi)) :=
  brute_name_is_first_cap_run [some ("Alice and Bob 123456789 54321".toList)]
    [] false (by decide) (by decide)
    ⟨"123456789".toList, "Alice".toList, ["54321".toList]⟩ (by decide)

/-- C7 counterexample: on `Alice and Bob 123456789 54321` the brute-force
pass names the student `Alice` (the first capitalized run of the window),
while the nearest preceding capitalized run before the roll number is
`Bob` — so the name is not the nearest preceding run. -/
theorem brute_name_not_nearest_cex :
    parse_roll_list [some ("Alice and Bob 123456789 54321".toList)] [] false =
      [⟨"123456789".toList, "Alice".toList, ["54321".toList]⟩] ∧
    nearestPrecedingCapRun ("Alice and Bob ".toList) = some ("Bob".toList) ∧
    ("Alice".toList : Str) ≠ ("Bob".toList : Str) :=
  ⟨by decide, by decide, by decide⟩

/-- C8 (amended): in the tabular strategy, every emitted student comes from
a nonempty table row with a roll-number match and a nonempty paper-id list,
and its name is determined by the first cell satisfying the source
condition (nonempty, no roll-number match, length greater than two — the
cell need not be alphabetic): the stripped text of that cell, or `UNKNOWN`
when no cell qualifies or the stripped text is empty. -/
theorem tabular_name_first_good_cell
    (tablesByPage : List (List (List (List (Option Str))))) :
    ∀ st ∈ tabularStudents tablesByPage,
      ∃ row, (∃ tables ∈ tablesByPage, ∃ table ∈ tables, row ∈ table) ∧
        row ≠ [] ∧
        rollSearchTok (rowStr row) = some st.roll ∧
        st.papers = dedupKeepFirst (findFiveDigitTokens (rowStr row)) ∧
        st.papers ≠ [] ∧
        st.name = tabularName row ∧
        (match row.find? cellGood with
         | some c => st.name =
            (if stripWS (cellStr c) = [] then "UNKNOWN".toList
             else stripWS (cellStr c))
         | none => st.name = "UNKNOWN".toList) := by
  intro st hst
  rw [tabularStudents, List.mem_flatten] at hst
  obtain ⟨l1, hl1, hst⟩ := hst
  rw [List.mem_map] at hl1
  obtain ⟨tables, htables, rfl⟩ := hl1
  rw [List.mem_flatten] at hst
  obtain ⟨l2, hl2, hst⟩ := hst
  rw [List.mem_map] at hl2
  obtain ⟨table, htable, rfl⟩ := hl2
  obtain ⟨row, hrow, heq⟩ := List.mem_filterMap.1 hst
  refine ⟨row, ⟨tables, htables, table, htable, hrow⟩, ?_⟩
  rw [tabularRowStudent] at heq
  by_cases h0 : row = []
  · rw [if_pos h0] at heq
    cases heq
  · rw [if_neg h0] at heq
    cases hroll : rollSearchTok (rowStr row) with
    | none =>
      rw [hroll] at heq
      cases heq
    | some roll =>
      rw [hroll] at heq
      dsimp only at heq
      by_cases hp : dedupKeepFirst (findFiveDigitTokens (rowStr row)) = []
      · rw [if_pos hp] at heq
        cases heq
      · rw [if_neg hp] at heq
        obtain rfl := Option.some.inj heq
        refine ⟨h0, rfl, rfl, hp, rfl, ?_⟩
        cases hfind : row.find? cellGood with
        | none => simp [tabularName, hfind]
        | some c =>
          by_cases hns : stripWS (cellStr c) = []
          · simp [tabularName, hfind, hns]
          · simp [tabularName, hfind, hns]

/-- Closed witness for C8 (amended), at the concrete table row
`["54321", "John Doe", "123456789"]` and its emitted student. -/
theorem tabular_name_first_good_cell_witness :
    ∃ row, (∃ tables ∈
        [[[[some "54321".toList, some "John Doe".toList,
            some "123456789".toList]]]], ∃ table ∈ tables, row ∈ table) ∧
      row ≠ [] ∧
      rollSearchTok (rowStr row) =
        some (⟨"123456789".toList, "54321".toList, ["54321".toList]⟩ : Student).roll ∧
      (⟨"123456789".toList, "54321".toList, ["54321".toList]⟩ : Student).papers =
        dedupKeepFirst (findFiveDigitTokens (rowStr row)) ∧
      (⟨"123456789".toList, "54321".toList, ["54321".toList]⟩ : Student).papers ≠ [] ∧
      (⟨"123456789".toList, "54321".toList, ["54321".toList]⟩ : Student).name =
        tabularName row ∧
      (match row.find? cellGood with
       | some c =>
          (⟨"123456789".toList, "54321".toList, ["54321".toList]⟩ : Student).name =
            (if stripWS (cellStr c) = [] then "UNKNOWN".toList
             else stripWS (cellStr c))
       | none =>
          (⟨"123456789".toList, "54321".toList, ["54321".toList]⟩ : Student).name =
            "UNKNOWN".toList) :=
  tabular_name_first_good_cell
    [[[[some "54321".toList, some "John Doe".toList, some "123456789".toList]]]]
    ⟨"123456789".toList, "54321".toList, ["54321".toList]⟩ (by decide)

/-- C8 counterexample: the row `["54321", "John Doe", "123456789"]` has an
alphabetic name cell (`John Doe`, no long digit run), yet the tabular
strategy assigns the purely numeric first cell `54321` as the student name
— neither the first alphabetic cell nor the `UNKNOWN` sentinel. -/
theorem tabular_name_not_alphabetic_cex :
    parse_roll_list []
        [[[[some "54321".toList, some "John Doe".toList,
            some "123456789".toList]]]] false =
      [⟨"123456789".toList, "54321".toList, ["54321".toList]⟩] ∧
    ("54321".toList : Str).all (fun c => !c.isAlpha) = true ∧
    ("54321".toList : Str) ≠ "UNKNOWN".toList ∧
    ("54321".toList : Str) ≠ "John Doe".toList ∧
    ("John Doe".toList : Str).any (fun c => c.isAlpha) = true ∧
    rollSearchTok ("John Doe".toList) = none :=
  ⟨by decide, by decide, by decide, by decide, by decide, by decide⟩

end Scanner
